import Mathlib

set_option maxHeartbeats 1000000

/- Shallow embedding of the ProxImaL excerpt:
   src/proximal/prox_fns/prox_fn.py      (class ProxFn),
   src/proximal/lin_ops/pxwise_matrixmult.py,
   src/proximal/lin_ops/transpose.py.
   Numpy arrays are modelled as rational-valued functions of integer indices;
   in-place numpy updates are modelled by explicit sequencing of the buffer
   contents; fallible constructors return Except. -/

/-- Embedding of ProxFn.prox (prox_fn.py lines 83-99).  The numpy buffer v is a
function on an index type; the in-place statements v *= rho, v -= c,
v *= beta / (rho + 2 * gamma), v -= b are sequenced explicitly as v1..v4.
The core _prox is an uninterpreted map that receives rho_hat and the buffer
(holding v4) and yields the returned array together with the contents the
buffer holds after the core ran.  The result is the pair of the value the
method returns, namely (xhat + b) / beta elementwise, and the final buffer
contents. -/
def proxRun {I : Type} (alpha beta gamma : ℚ) (b c : I → ℚ)
    (core : ℚ → (I → ℚ) → ((I → ℚ) × (I → ℚ))) (rho : ℚ) (v : I → ℚ) :
    ((I → ℚ) × (I → ℚ)) :=
  let rhoHat := (rho + 2 * gamma) / (alpha * beta ^ 2)
  let v1 := fun i => v i * rho
  let v2 := fun i => v1 i - c i
  let v3 := fun i => v2 i * (beta / (rho + 2 * gamma))
  let v4 := fun i => v3 i - b i
  let res := core rhoHat v4
  let x1 := fun i => res.1 i + b i
  let x2 := fun i => x1 i / beta
  (x2, res.2)

/-- Embedding of the rho_hat expression emitted by ProxFn.gen_cuda_code
(prox_fn.py lines 122-130 and 154): the + 2 * gamma summand is omitted from
the generated source when gamma = 0 and the division by alpha * beta ^ 2 is
omitted when that product is 1. -/
def rhoHatEmitted (alpha beta gamma rho : ℚ) : ℚ :=
  (rho + (if gamma = 0 then 0 else 2 * gamma)) /
    (if alpha * beta ^ 2 = 1 then 1 else alpha * beta ^ 2)

/-- Embedding of the per-element v expression built by the gen_v template of
ProxFn.gen_cuda_code (prox_fn.py lines 113, 118-120 and 139-145).  The
template is "(((v[idx] * rho) ccode) mul_beta) / (rho plus_2gamma bcode1)"
where ccode is "- c[idx]" when the string "c" is a member of the local list
argnames, mul_beta is "* beta" when beta is not 1, plus_2gamma is
"+ 2 * gamma" when gamma is not 0, and bcode1 is "- b[idx]" (interpolated
inside the denominator of the division) when the string "b" is a member of
argnames.  The local argnames is initialized to the empty list at line 113
and never appended to: the registration loop appends to the never-initialized
attribute self.argnames and raises on any nonempty buffer list, so every
execution that reaches this template has argnames empty.  bv, cv, vv are the
element values of the b, c and v buffers. -/
def genVEmitted (beta gamma : ℚ) (argnames : List String) (bv cv vv rho : ℚ) : ℚ :=
  ((vv * rho - (if "c" ∈ argnames then cv else 0)) * (if beta = 1 then 1 else beta)) /
    (rho + (if gamma = 0 then 0 else 2 * gamma) - (if "b" ∈ argnames then bv else 0))

/-- Embedding of the post-processing before the store in the generated kernel
(prox_fn.py lines 121 and 131-137, 160-164): bcode2 adds b[vidx] when the
string "b" is a member of the local list argnames (empty in every execution
that reaches emission, see genVEmitted), then xhatc is divided by beta unless
beta = 1, and the result is stored. -/
def storeEmitted (beta : ℚ) (argnames : List String) (bv xhatc : ℚ) : ℚ :=
  (xhatc + (if "b" ∈ argnames then bv else 0)) / (if beta = 1 then 1 else beta)

/-- Host-side rho_hat of ProxFn.prox (prox_fn.py line 87). -/
def hostRhoHat (alpha beta gamma rho : ℚ) : ℚ := (rho + 2 * gamma) / (alpha * beta ^ 2)

/-- Host-side v_hat of ProxFn.prox (prox_fn.py lines 88-93), elementwise:
((v * rho) - c) * (beta / (rho + 2 * gamma)) - b. -/
def hostVhat (beta gamma bv cv vv rho : ℚ) : ℚ :=
  ((vv * rho) - cv) * (beta / (rho + 2 * gamma)) - bv

/-- A python value passed to the ProxFn constructor: either a scalar or a
tensor carrying a shape and its data (indexed by multi-indices). -/
inductive PyVal where
  | scalar (x : ℚ)
  | tensor (shape : List ℕ) (data : List ℕ → ℚ)

/-- np.isscalar. -/
def PyVal.isscalar : PyVal → Bool
  | .scalar _ => true
  | .tensor _ _ => false

/-- The .shape attribute of a tensor (scalars never reach a shape access in
the guarded source expressions). -/
def PyVal.shape : PyVal → List ℕ
  | .scalar _ => []
  | .tensor s _ => s

/-- The numeric value of a scalar PyVal (tensors never reach the scalar
comparisons in the guarded source expressions). -/
def PyVal.val : PyVal → ℚ
  | .scalar x => x
  | .tensor _ _ => 0

/-- The state ProxFn.__init__ stores on success: scalars alpha, beta, gamma, d
and the tensors b and c materialized at the shape of the underlying operator. -/
structure ProxFnData where
  alpha : ℚ
  beta : ℚ
  gamma : ℚ
  d : ℚ
  b : List ℕ → ℚ
  c : List ℕ → ℚ

/-- Materialization of b and c in ProxFn.__init__ (prox_fn.py lines 42-47):
a scalar s is stored as s * np.ones(shape), a tensor is stored as given. -/
def materializeAt (shape : List ℕ) : PyVal → (List ℕ → ℚ)
  | .scalar x => fun _ => x
  | .tensor _ data => data

/-- Embedding of the error checking and storage of ProxFn.__init__
(prox_fn.py lines 21-49), in source order: b and c must be scalar or have
exactly the shape of the underlying operator; alpha and gamma must be
nonnegative scalars (the zip in the source truncates, so d is not checked
for nonnegativity); beta and d must be scalars. -/
def proxFnInit (shape : List ℕ) (alpha beta gamma d b c : PyVal) :
    Except String ProxFnData :=
  if ¬ (b.isscalar = true ∨ b.shape = shape) then
    Except.error "Invalid dimensions of b."
  else if ¬ (c.isscalar = true ∨ c.shape = shape) then
    Except.error "Invalid dimensions of c."
  else if ¬ alpha.isscalar = true ∨ alpha.val < 0 then
    Except.error "alpha must be a nonnegative scalar."
  else if ¬ gamma.isscalar = true ∨ gamma.val < 0 then
    Except.error "gamma must be a nonnegative scalar."
  else if ¬ beta.isscalar = true then
    Except.error "beta must be a scalar."
  else if ¬ d.isscalar = true then
    Except.error "d must be a scalar."
  else
    Except.ok ⟨alpha.val, beta.val, gamma.val, d.val,
               materializeAt shape b, materializeAt shape c⟩

/-- Boolean check whether an Except value is a success. -/
def exceptOk {A : Type} : Except String A → Bool
  | .ok _ => true
  | .error _ => false

/-- Numpy broadcast compatibility of a source shape to a destination shape:
shapes are right-aligned and every source dimension must equal the
destination dimension or be 1. -/
def broadcastable (src dst : List ℕ) : Bool :=
  decide (src.length ≤ dst.length) &&
    (List.zip src.reverse dst.reverse).all fun p => p.1 == p.2 || p.1 == 1

/-- np.all(t == 0) for a flattened tensor. -/
def allZero (l : List ℚ) : Bool := l.all fun x => decide (x = 0)

/-- Embedding of ProxFn.cuda_additional_buffers (prox_fn.py lines 101-107):
the c buffer is registered first and only when c is not identically zero,
then the b buffer under the same condition on b. -/
def cudaAdditionalBuffers (b c : List ℚ) : List (String × List ℚ) :=
  (if allZero c then [] else [("c", c)]) ++ (if allZero b then [] else [("b", b)])

/-- Embedding of the buffer-registration loop of ProxFn.gen_cuda_code
(prox_fn.py lines 112-117).  The first statement of the loop body reads
self.argnames, an attribute no method ever initializes (only a local variable
argnames exists), so a nonempty buffer list raises AttributeError on the first
iteration; were the attribute present, the next effectful statement
self.cuda_args.append(aname, aval) passes two arguments to the one-argument
list.append and raises TypeError.  An empty buffer list skips the loop body
entirely. -/
def registerBuffers (argnamesAttr : Option (List String)) :
    List (String × List ℚ) → Except String Unit
  | [] => Except.ok ()
  | _ :: _ =>
    match argnamesAttr with
    | none => Except.error "AttributeError: ProxFn has no attribute argnames"
    | some _ => Except.error "TypeError: append takes exactly one argument"

/-- The buffer-registration phase of ProxFn.gen_cuda_code as invoked on a
freshly constructed ProxFn, whose attribute table never contains argnames. -/
def genCudaRegister (b c : List ℚ) : Except String Unit :=
  registerBuffers none (cudaAdditionalBuffers b c)

/-- The value of the local variable argnames when execution of
ProxFn.gen_cuda_code reaches the template guards at prox_fn.py lines 118-121:
the registration loop raises on any nonempty buffer list (so nothing is
emitted at all), and when the buffer list is empty the loop body never runs
and argnames still holds the empty list assigned at line 113. -/
def genCudaArgnames (b c : List ℚ) : Except String (List String) :=
  (registerBuffers none (cudaAdditionalBuffers b c)).map fun _ => []

/-- Embedding of pxwise_matrixmult.forward (pxwise_matrixmult.py lines 23-33):
y[pixel, i] is the sum over j < M of A[pixel, i, j] * x[pixel, j].  Pixels are
flattened into the first index. -/
def pxForward (M : ℕ) (A : ℕ → ℕ → ℕ → ℚ) (x : ℕ → ℕ → ℚ) : ℕ → ℕ → ℚ :=
  fun p i => ∑ j in Finset.range M, A p i j * x p j

/-- Embedding of pxwise_matrixmult.adjoint (pxwise_matrixmult.py lines 35-45):
x[pixel, i] is the sum over j < N of A[pixel, j, i] * y[pixel, j]. -/
def pxAdjoint (N : ℕ) (A : ℕ → ℕ → ℕ → ℚ) (y : ℕ → ℕ → ℚ) : ℕ → ℕ → ℚ :=
  fun p i => ∑ j in Finset.range N, A p j i * y p j

/-- Euclidean inner product over P pixels and K components per pixel. -/
def pxInner (P K : ℕ) (u v : ℕ → ℕ → ℚ) : ℚ :=
  ∑ p in Finset.range P, ∑ i in Finset.range K, u p i * v p i

/-- The per-pixel Gram tensor of pxwise_matrixmult.norm_bound
(pxwise_matrixmult.py lines 154-158): ATA[pixel, i, j] is the sum over k < N
of A[pixel, k, i] * A[pixel, k, j]; it is an M x M matrix per pixel. -/
def ATA (N : ℕ) (A : ℕ → ℕ → ℕ → ℚ) : ℕ → ℕ → ℕ → ℚ :=
  fun p i j => ∑ k in Finset.range N, A p k i * A p k j

/-- np.amax over the P flattened pixels; pixel grids are nonempty. -/
def amax (P : ℕ) (f : ℕ → ℚ) : ℚ :=
  (List.range P).foldl (fun m p => max m (f p)) (f 0)

/-- Embedding of pxwise_matrixmult.norm_bound (pxwise_matrixmult.py lines
133-177) for A of shape P x N x M (pixels flattened into P), with the numpy
sqrt as an uninterpreted map sq.  When the normbound override is present the
result is normbound * input_mags[0].  Otherwise the source guards on
A.shape[-2] == 2, that is on N = 2, reads the four entries (0,0), (0,1),
(1,0), (1,1) of the per-pixel M x M Gram tensor, forms the closed-form
eigenvalues ((a + d) plus or minus sqrt(max(0, (a+d)^2 - 4*(a*d - b*c)))) / 2,
maximizes over pixels and both eigenvalues, and returns that maximum times
input_mags[0]; no square root is applied to the maximal eigenvalue.  For
N different from 2 it raises. -/
def norm_bound (sq : ℚ → ℚ) (P N M : ℕ) (A : ℕ → ℕ → ℕ → ℚ)
    (normbound : Option ℚ) (mag : ℚ) : Except String ℚ :=
  match normbound with
  | some nb => Except.ok (nb * mag)
  | none =>
    if N = 2 then
      let ata := ATA N A
      let a := fun p => ata p 0 0
      let b := fun p => ata p 0 1
      let c := fun p => ata p 1 0
      let d := fun p => ata p 1 1
      let gapA := fun p => sq (max 0 ((a p + d p) ^ 2 - 4 * (a p * d p - b p * c p)))
      let l1 := fun p => ((a p + d p) + gapA p) * (1 / 2)
      let l2 := fun p => ((a p + d p) - gapA p) * (1 / 2)
      let l := max (amax P l1) (amax P l2)
      Except.ok (max l 0 * mag)
    else Except.error "NotImplemented"

/-- Embedding of the shape check of pxwise_matrixmult.__init__
(pxwise_matrixmult.py lines 13-21): the assertion compares A.shape[:-2]
elementwise with arg.shape[:-1]; on success the node is built with output
shape A.shape[:-1]. -/
def pxwiseInit (Ashape argshape : List ℕ) : Except String (List ℕ) :=
  if Ashape.dropLast.dropLast = argshape.dropLast then Except.ok Ashape.dropLast
  else Except.error "AssertionError"

/-- Semantics of np.transpose(a, axes) on arrays modelled as functions of
multi-indices: the entry of the result at multi-index i is the entry of a at
the multi-index whose component in dimension dd is i (axes.symm dd). -/
def npTranspose {n : ℕ} (axes : Equiv.Perm (Fin n)) (a : (Fin n → ℕ) → ℚ) :
    (Fin n → ℕ) → ℚ :=
  fun i => a fun dd => i (axes.symm dd)

/-- transpose.forward (transpose.py lines 17-23): np.transpose(input, axes). -/
def transposeForward {n : ℕ} (axes : Equiv.Perm (Fin n)) :
    ((Fin n → ℕ) → ℚ) → (Fin n → ℕ) → ℚ :=
  npTranspose axes

/-- transpose.adjoint (transpose.py lines 25-31): np.transpose(input, inverse),
the transposition by the inverse permutation. -/
def transposeAdjoint {n : ℕ} (axes : Equiv.Perm (Fin n)) :
    ((Fin n → ℕ) → ℚ) → (Fin n → ℕ) → ℚ :=
  npTranspose axes.symm

/-- Embedding of the inverse-permutation construction of transpose.__init__
(transpose.py lines 10-15): starting from range(n), the loop writes
inverse[axes[idx]] = idx for each idx in order. -/
def buildInverse {n : ℕ} (axes : Equiv.Perm (Fin n)) : Fin n → Fin n :=
  (List.finRange n).foldl (fun f idx => Function.update f (axes idx) idx) id

/-- The set of valid multi-indices of an array of shape s. -/
def box {n : ℕ} (s : Fin n → ℕ) : Finset (Fin n → ℕ) :=
  Fintype.piFinset fun dd => Finset.range (s dd)

/-- Inner product of two arrays over a finite index set. -/
def innerOn {n : ℕ} (F : Finset (Fin n → ℕ)) (u v : (Fin n → ℕ) → ℚ) : ℚ :=
  ∑ i in F, u i * v i

/-- Concrete per-pixel matrix (1/2) * identity, used at shape 1 x 2 x 2. -/
def Ahalf : ℕ → ℕ → ℕ → ℚ := fun _ i j => if i = j then 1 / 2 else 0

/-- Concrete per-pixel identity matrix, used at shape 1 x 2 x 2. -/
def Aident : ℕ → ℕ → ℕ → ℚ := fun _ i j => if i = j then 1 else 0

/-- Concrete per-pixel matrix of shape 1 x 2 x 3 whose single nonzero entry is
A[0, 0, 2] = 2 (so N = 2 and M = 3). -/
def Awide : ℕ → ℕ → ℕ → ℚ := fun _ i j => if i = 0 ∧ j = 2 then 2 else 0

/-- Everywhere-zero array on a unit index set, for concrete prox instances. -/
def zeroU : Unit → ℚ := fun _ => 0

/-- Constant-3 array on a unit index set, for concrete prox instances. -/
def threeU : Unit → ℚ := fun _ => 3

/-- A concrete core proximal map that returns the buffer contents unchanged
and leaves the buffer untouched. -/
def idCore : ℚ → (Unit → ℚ) → ((Unit → ℚ) × (Unit → ℚ)) := fun _ w => (w, w)

/-- Claim C1: for every ProxFn with alpha positive, beta nonzero, gamma
nonnegative, every rho positive and every point v of the operator shape,
prox(rho, v) returns (x_hat + b) / beta elementwise, where x_hat is
_prox(rho_hat, v_hat), rho_hat = (rho + 2 * gamma) / (alpha * beta ^ 2) and
v_hat = ((v * rho) - c) * (beta / (rho + 2 * gamma)) - b, with the core _prox
uninterpreted. -/
theorem prox_affine_reduction {I : Type} (alpha beta gamma rho : ℚ)
    (b c : I → ℚ) (core : ℚ → (I → ℚ) → ((I → ℚ) × (I → ℚ))) (v : I → ℚ)
    (ha : 0 < alpha) (hb : beta ≠ 0) (hg : 0 ≤ gamma) (hr : 0 < rho) :
    (proxRun alpha beta gamma b c core rho v).1 =
      fun i => ((core ((rho + 2 * gamma) / (alpha * beta ^ 2))
        (fun j => ((v j * rho) - c j) * (beta / (rho + 2 * gamma)) - b j)).1 i
          + b i) / beta := rfl

/-- Witness for C1 at alpha = 1, beta = 1, gamma = 0, rho = 1, b = c = 0,
v constantly 3, and the identity core. -/
theorem prox_affine_reduction_witness :
    ((0 : ℚ) < 1 ∧ (1 : ℚ) ≠ 0 ∧ (0 : ℚ) ≤ 0 ∧ (0 : ℚ) < 1) ∧
    (proxRun 1 1 0 zeroU zeroU idCore 1 threeU).1 =
      fun i => ((idCore ((1 + 2 * 0) / (1 * 1 ^ 2))
        (fun j => ((threeU j * 1) - zeroU j) * (1 / (1 + 2 * 0)) - zeroU j)).1 i
          + zeroU i) / 1 :=
  ⟨⟨by norm_num, one_ne_zero, le_refl 0, by norm_num⟩,
    prox_affine_reduction 1 1 0 1 zeroU zeroU idCore threeU
      (by norm_num) one_ne_zero (le_refl 0) (by norm_num)⟩

/-- Claim C9 (amended): after prox(rho, v) returns, the buffer v holds the
intermediate value v_hat = ((v * rho) - c) * (beta / (rho + 2 * gamma)) - b as
possibly further modified by the core _prox; the buffer is overwritten with
v_hat, though for some parameter settings v_hat coincides with the original
contents. -/
theorem prox_buffer_holds_vhat {I : Type} (alpha beta gamma rho : ℚ)
    (b c : I → ℚ) (core : ℚ → (I → ℚ) → ((I → ℚ) × (I → ℚ))) (v : I → ℚ) :
    (proxRun alpha beta gamma b c core rho v).2 =
      (core ((rho + 2 * gamma) / (alpha * beta ^ 2))
        (fun j => ((v j * rho) - c j) * (beta / (rho + 2 * gamma)) - b j)).2 := rfl

/-- Counterexample to C9 as stated: with alpha = 1, beta = 1, gamma = 0,
b = c = 0, rho = 1 and a core that leaves the buffer untouched, the buffer
still holds its original contents (constantly 5) after the call, so it is not
true that v never holds its original contents after prox. -/
theorem prox_buffer_unchanged_cex :
    (proxRun 1 1 0 zeroU zeroU (fun _ w => (w, w)) 1 (fun _ => 5)).2 =
      fun _ : Unit => (5 : ℚ) := by
  funext i
  norm_num [proxRun, zeroU]

/-- Claim C2 (amended): the rho_hat expression emitted by gen_cuda_code
agrees with the host rho_hat for all parameters; kernel generation reaches
emission only for b and c both identically zero (otherwise buffer
registration raises and nothing is emitted), and then the local argnames list
consulted by the template guards is empty, so the b and c terms are always
omitted from the generated expression; with argnames empty the emitted
per-element v expression equals the host v_hat at b = c = 0, and the emitted
store divides by beta. -/
theorem gen_cuda_emitted_matches_host :
    (∀ alpha beta gamma rho : ℚ,
        rhoHatEmitted alpha beta gamma rho = hostRhoHat alpha beta gamma rho) ∧
    (∀ b c : List ℚ, allZero b = true → allZero c = true →
        genCudaArgnames b c = Except.ok []) ∧
    (∀ beta gamma bv cv vv rho : ℚ,
        genVEmitted beta gamma [] bv cv vv rho = hostVhat beta gamma 0 0 vv rho) ∧
    (∀ beta bv xh : ℚ, storeEmitted beta [] bv xh = (xh + 0) / beta) := by
  refine ⟨?_, ?_, ?_, ?_⟩
  · intro alpha beta gamma rho
    unfold rhoHatEmitted hostRhoHat
    rcases em (gamma = 0) with hg | hg <;>
      rcases em (alpha * beta ^ 2 = 1) with ha | ha <;>
        simp [hg, ha]
  · intro b c hb hc
    unfold genCudaArgnames cudaAdditionalBuffers
    rw [if_pos hc, if_pos hb]
    rfl
  · intro beta gamma bv cv vv rho
    unfold genVEmitted hostVhat
    have hbeta : (if beta = 1 then 1 else beta) = beta := by
      rcases em (beta = 1) with h | h <;> simp [h]
    have hgamma : rho + (if gamma = 0 then 0 else 2 * gamma) = rho + 2 * gamma := by
      rcases em (gamma = 0) with h | h <;> simp [h]
    rw [hbeta, hgamma]
    simp [mul_div_assoc]
  · intro beta bv xh
    unfold storeEmitted
    have hbeta : (if beta = 1 then 1 else beta) = beta := by
      rcases em (beta = 1) with h | h <;> simp [h]
    rw [hbeta]
    simp

/-- Witness for the amended C2 at b = [0] and c = [0], both identically zero:
generation reaches emission and the local argnames list is empty. -/
theorem gen_cuda_emitted_matches_host_witness :
    (allZero [(0 : ℚ)] = true ∧ allZero [(0 : ℚ)] = true) ∧
    genCudaArgnames [(0 : ℚ)] [(0 : ℚ)] = Except.ok [] :=
  ⟨⟨by decide, by decide⟩,
    gen_cuda_emitted_matches_host.2.1 [(0 : ℚ)] [(0 : ℚ)] (by decide) (by decide)⟩

/-- Counterexample to C2 as stated: for b = [1], which is not identically
zero, the claim says the generated expression carries the b term; but
gen_cuda_code raises during buffer registration before the gen_v template is
ever built, so no per-element expression is emitted at all. -/
theorem gen_cuda_emission_crash_cex :
    (¬ allZero [(1 : ℚ)] = true) ∧
    genCudaArgnames [(1 : ℚ)] [(0 : ℚ)] =
      Except.error "AttributeError: ProxFn has no attribute argnames" :=
  ⟨by decide, rfl⟩

/-- Claim C10: for every ProxFn whose b or c tensor is not identically zero,
cuda_additional_buffers() is nonempty and the buffer-registration phase of
gen_cuda_code raises (the attribute argnames is never initialized, and the
subsequent two-argument call to list.append would also raise), so the
compiled-prox-kernel path can only complete when b and c are both identically
zero. -/
theorem gen_cuda_buffers_crash (b c : List ℚ)
    (h : ¬ allZero b = true ∨ ¬ allZero c = true) :
    cudaAdditionalBuffers b c ≠ [] ∧
    ∃ e, genCudaRegister b c = Except.error e := by
  have hne : cudaAdditionalBuffers b c ≠ [] := by
    unfold cudaAdditionalBuffers
    rcases h with h | h <;>
      rcases em (allZero c = true) with hc | hc <;>
        rcases em (allZero b = true) with hb | hb <;>
          simp_all
  refine ⟨hne, ?_⟩
  rcases List.exists_cons_of_ne_nil hne with ⟨hd, tl, heq⟩
  exact ⟨"AttributeError: ProxFn has no attribute argnames",
    by unfold genCudaRegister; rw [heq]; rfl⟩

/-- Witness for C10 at b = [1] (not identically zero) and c = [0]. -/
theorem gen_cuda_buffers_crash_witness :
    (¬ allZero [(1 : ℚ)] = true ∨ ¬ allZero [(0 : ℚ)] = true) ∧
    (cudaAdditionalBuffers [(1 : ℚ)] [(0 : ℚ)] ≠ [] ∧
      ∃ e, genCudaRegister [(1 : ℚ)] [(0 : ℚ)] = Except.error e) :=
  ⟨Or.inl (by decide), gen_cuda_buffers_crash [(1 : ℚ)] [(0 : ℚ)] (Or.inl (by decide))⟩

/-- Claim C7: the constructor of pxwise_matrixmult accepts a matching input
shape K ++ [M] for A of shape K ++ [N, M] and produces output shape K ++ [N];
but the assertion only compares A.shape[:-2] with arg.shape[:-1], so an input
whose trailing dimension differs from M also passes: for A of shape [2, 3]
construction with input shape [5] succeeds although [5] is not [3]. -/
theorem pxwise_shape_check_gap :
    (∀ (K : List ℕ) (N M : ℕ),
        pxwiseInit (K ++ [N, M]) (K ++ [M]) = Except.ok (K ++ [N])) ∧
    pxwiseInit [2, 3] [5] = Except.ok [2] ∧ (([5] : List ℕ) ≠ [3]) := by
  refine ⟨?_, rfl, by decide⟩
  intro K N M
  have h1 : (K ++ [N, M]).dropLast = K ++ [N] := by
    have h : K ++ [N, M] = (K ++ [N]) ++ [M] := by simp
    rw [h, List.dropLast_concat]
  have h2 : (K ++ [M]).dropLast = K := List.dropLast_concat
  have h3 : (K ++ [N]).dropLast = K := List.dropLast_concat
  unfold pxwiseInit
  rw [h1, h3, h2, if_pos rfl]

/-- Helper: folding the inverse-building updates over a list that does not
contain i leaves the value at axes i unchanged. -/
theorem foldl_update_not_mem {n : ℕ} (axes : Equiv.Perm (Fin n)) :
    ∀ (l : List (Fin n)) (f : Fin n → Fin n) (i : Fin n), i ∉ l →
      (l.foldl (fun g idx => Function.update g (axes idx) idx) f) (axes i) =
        f (axes i) := by
  intro l
  induction l with
  | nil => intro f i _; rfl
  | cons a t ih =>
    intro f i hi
    have h1 : i ≠ a := fun h => hi (h ▸ List.mem_cons_self a t)
    have h2 : i ∉ t := fun h => hi (List.mem_cons_of_mem a h)
    simp only [List.foldl_cons]
    rw [ih _ i h2]
    exact Function.update_noteq (fun h => h1 (axes.injective h)) _ _

/-- Helper: after folding the inverse-building updates over a duplicate-free
list containing i, the value at axes i is i. -/
theorem foldl_update_mem {n : ℕ} (axes : Equiv.Perm (Fin n)) :
    ∀ (l : List (Fin n)) (f : Fin n → Fin n) (i : Fin n), i ∈ l → l.Nodup →
      (l.foldl (fun g idx => Function.update g (axes idx) idx) f) (axes i) = i := by
  intro l
  induction l with
  | nil => intro f i hi _; cases hi
  | cons a t ih =>
    intro f i hi hn
    simp only [List.foldl_cons]
    rcases List.mem_cons.mp hi with h | h
    · subst h
      have hnotin : i ∉ t := (List.nodup_cons.mp hn).1
      rw [foldl_update_not_mem axes t _ i hnotin]
      exact Function.update_same _ _ _
    · exact ih _ i h (List.nodup_cons.mp hn).2

/-- Claim C5: for every transpose node built from a valid permutation,
adjoint(forward(x)) equals x exactly for every input array x, and the
precomputed inverse satisfies inverse[axes[i]] = i for all i. -/
theorem transpose_roundtrip_inverse {n : ℕ} (axes : Equiv.Perm (Fin n)) :
    (∀ x : (Fin n → ℕ) → ℚ, transposeAdjoint axes (transposeForward axes x) = x) ∧
    (∀ i : Fin n, buildInverse axes (axes i) = i) := by
  constructor
  · intro x
    funext j
    simp [transposeAdjoint, transposeForward, npTranspose]
  · intro i
    exact foldl_update_mem axes (List.finRange n) id i
      (List.mem_finRange i) (List.nodup_finRange n)

/-- Claim C4: for every pxwise_matrixmult and all arrays x of the input shape
and y of the output shape, the inner product of forward(x) with y equals the
inner product of x with adjoint(y); and the same identity holds for every
transpose node, with inner products over the respective index boxes. -/
theorem adjoint_inner_identity :
    (∀ (P N M : ℕ) (A : ℕ → ℕ → ℕ → ℚ) (x y : ℕ → ℕ → ℚ),
        pxInner P N (pxForward M A x) y = pxInner P M x (pxAdjoint N A y)) ∧
    (∀ (n : ℕ) (s : Fin n → ℕ) (axes : Equiv.Perm (Fin n))
        (x y : (Fin n → ℕ) → ℚ),
        innerOn (box fun dd => s (axes dd)) (transposeForward axes x) y =
          innerOn (box s) x (transposeAdjoint axes y)) := by
  constructor
  · intro P N M A x y
    unfold pxInner pxForward pxAdjoint
    refine Finset.sum_congr rfl fun p _ => ?_
    simp only [Finset.sum_mul, Finset.mul_sum]
    rw [Finset.sum_comm]
    refine Finset.sum_congr rfl fun j _ => Finset.sum_congr rfl fun i _ => by ring
  · intro n s axes x y
    unfold innerOn transposeForward transposeAdjoint npTranspose box
    refine Finset.sum_bij' (fun i _ => fun dd => i (axes.symm dd))
      (fun j _ => fun dd => j (axes dd)) ?_ ?_ ?_ ?_ ?_
    · intro a ha
      rw [Fintype.mem_piFinset] at ha ⊢
      intro dd
      have := ha (axes.symm dd)
      simpa using this
    · intro a ha
      rw [Fintype.mem_piFinset] at ha ⊢
      intro dd
      exact ha (axes dd)
    · intro a _
      funext dd
      simp
    · intro a _
      funext dd
      simp
    · intro a _
      simp

/-- Claim C3: at the concrete pxwise_matrixmult with a single pixel and
per-pixel matrix (1/2) times the 2 x 2 identity, norm_bound with
input_mags = [1] returns 1/4, the maximal eigenvalue of the Gram matrix,
whereas the claimed value sqrt(max eigenvalue) * input_mags[0] is 1/2; the
code value even understates the true operator norm, since forward of the unit
vector e0 has component 1/2 in the output.  Moreover for N = 3, M = 2 the
code raises although the claim says the closed form applies whenever M = 2;
and the identity-matrix example of the claim does return 1. -/
theorem norm_bound_missing_sqrt (sq : ℚ → ℚ)
    (h0 : sq 0 = 0) (hq : sq (1 / 4) = 1 / 2) :
    norm_bound sq 1 2 2 Ahalf none 1 = Except.ok (1 / 4) ∧
    sq (1 / 4) * 1 = 1 / 2 ∧ ((1 / 4 : ℚ) ≠ 1 / 2) ∧
    pxForward 2 Ahalf (fun _ j => if j = 0 then 1 else 0) 0 0 = 1 / 2 ∧
    ((1 / 4 : ℚ) < 1 / 2) ∧
    norm_bound sq 1 3 2 (fun _ _ _ => 0) none 1 = Except.error "NotImplemented" ∧
    norm_bound sq 1 2 2 Aident none 1 = Except.ok 1 := by
  refine ⟨?_, by rw [hq]; norm_num, by norm_num, ?_, by norm_num, ?_, ?_⟩
  · unfold norm_bound ATA amax Ahalf
    norm_num [Finset.sum_range_succ, List.range_succ, h0]
  · unfold pxForward Ahalf
    norm_num [Finset.sum_range_succ]
  · unfold norm_bound
    norm_num
  · unfold norm_bound ATA amax Aident
    norm_num [Finset.sum_range_succ, List.range_succ, h0]

/-- Witness for C3 with the concrete square-root table sending 1/4 to 1/2 and
everything else to 0. -/
theorem norm_bound_missing_sqrt_witness :
    ((fun q => if q = (1 / 4 : ℚ) then (1 / 2 : ℚ) else 0) 0 = 0 ∧
     (fun q => if q = (1 / 4 : ℚ) then (1 / 2 : ℚ) else 0) (1 / 4) = 1 / 2) ∧
    (norm_bound (fun q => if q = (1 / 4 : ℚ) then (1 / 2 : ℚ) else 0)
        1 2 2 Ahalf none 1 = Except.ok (1 / 4) ∧
     (fun q => if q = (1 / 4 : ℚ) then (1 / 2 : ℚ) else 0) (1 / 4) * 1 = 1 / 2 ∧
     ((1 / 4 : ℚ) ≠ 1 / 2) ∧
     pxForward 2 Ahalf (fun _ j => if j = 0 then 1 else 0) 0 0 = 1 / 2 ∧
     ((1 / 4 : ℚ) < 1 / 2) ∧
     norm_bound (fun q => if q = (1 / 4 : ℚ) then (1 / 2 : ℚ) else 0)
        1 3 2 (fun _ _ _ => 0) none 1 = Except.error "NotImplemented" ∧
     norm_bound (fun q => if q = (1 / 4 : ℚ) then (1 / 2 : ℚ) else 0)
        1 2 2 Aident none 1 = Except.ok 1) :=
  ⟨⟨by norm_num, by norm_num⟩,
    norm_bound_missing_sqrt _ (by norm_num) (by norm_num)⟩

/-- Claim C6: at the concrete pxwise_matrixmult with a single pixel and
per-pixel matrix of shape 2 x 3 whose only nonzero entry is A[0, 2] = 2
(so the inner input dimension M = 3 differs from 2), norm_bound with
normbound = None returns the value 0 instead of raising, because the source
guards on A.shape[-2] = N = 2; the returned bound is silently wrong, since
forward of the unit vector e2 has component 2 in the output.  When the
normbound override is supplied, norm_bound returns normbound * input_mags[0]
for every configuration without failing. -/
theorem norm_bound_wrong_dim_branch (sq : ℚ → ℚ) (h0 : sq 0 = 0) :
    norm_bound sq 1 2 3 Awide none 1 = Except.ok 0 ∧
    pxForward 3 Awide (fun _ j => if j = 2 then 1 else 0) 0 0 = 2 ∧
    (∀ (P N M : ℕ) (A : ℕ → ℕ → ℕ → ℚ) (nb mag : ℚ),
        norm_bound sq P N M A (some nb) mag = Except.ok (nb * mag)) := by
  refine ⟨?_, ?_, fun P N M A nb mag => rfl⟩
  · unfold norm_bound ATA amax Awide
    norm_num [Finset.sum_range_succ, List.range_succ, h0]
  · unfold pxForward Awide
    norm_num [Finset.sum_range_succ]

/-- Witness for C6 with the everywhere-zero square-root table. -/
theorem norm_bound_wrong_dim_branch_witness :
    ((fun _ : ℚ => (0 : ℚ)) 0 = 0) ∧
    (norm_bound (fun _ : ℚ => (0 : ℚ)) 1 2 3 Awide none 1 = Except.ok 0 ∧
     pxForward 3 Awide (fun _ j => if j = 2 then 1 else 0) 0 0 = 2 ∧
     (∀ (P N M : ℕ) (A : ℕ → ℕ → ℕ → ℚ) (nb mag : ℚ),
        norm_bound (fun _ : ℚ => (0 : ℚ)) P N M A (some nb) mag =
          Except.ok (nb * mag))) :=
  ⟨rfl, norm_bound_wrong_dim_branch _ rfl⟩

/-- Claim C8 (amended): the ProxFn constructor fails exactly when b or c is
neither a scalar nor a tensor of exactly the shape of the underlying operator
(merely broadcastable shapes are rejected), or alpha or gamma is negative or
not a scalar, or beta or d is not a scalar; on success b and c are stored
materialized at the operator shape, a scalar being expanded to a full
constant tensor of that shape. -/
theorem proxfn_init_checks (shape : List ℕ) (alpha beta gamma d b c : PyVal) :
    (exceptOk (proxFnInit shape alpha beta gamma d b c) = true ↔
      ((b.isscalar = true ∨ b.shape = shape) ∧
       (c.isscalar = true ∨ c.shape = shape) ∧
       (alpha.isscalar = true ∧ 0 ≤ alpha.val) ∧
       (gamma.isscalar = true ∧ 0 ≤ gamma.val) ∧
       beta.isscalar = true ∧ d.isscalar = true)) ∧
    (((b.isscalar = true ∨ b.shape = shape) ∧
      (c.isscalar = true ∨ c.shape = shape) ∧
      (alpha.isscalar = true ∧ 0 ≤ alpha.val) ∧
      (gamma.isscalar = true ∧ 0 ≤ gamma.val) ∧
      beta.isscalar = true ∧ d.isscalar = true) →
      proxFnInit shape alpha beta gamma d b c =
        Except.ok ⟨alpha.val, beta.val, gamma.val, d.val,
                   materializeAt shape b, materializeAt shape c⟩) := by
  have hmain : ((b.isscalar = true ∨ b.shape = shape) ∧
      (c.isscalar = true ∨ c.shape = shape) ∧
      (alpha.isscalar = true ∧ 0 ≤ alpha.val) ∧
      (gamma.isscalar = true ∧ 0 ≤ gamma.val) ∧
      beta.isscalar = true ∧ d.isscalar = true) →
      proxFnInit shape alpha beta gamma d b c =
        Except.ok ⟨alpha.val, beta.val, gamma.val, d.val,
                   materializeAt shape b, materializeAt shape c⟩ := by
    rintro ⟨hb, hc, ⟨ha1, ha2⟩, ⟨hg1, hg2⟩, hbeta, hd⟩
    unfold proxFnInit
    rw [if_neg (not_not_intro hb), if_neg (not_not_intro hc),
        if_neg (not_or.mpr ⟨not_not_intro ha1, not_lt.mpr ha2⟩),
        if_neg (not_or.mpr ⟨not_not_intro hg1, not_lt.mpr hg2⟩),
        if_neg (not_not_intro hbeta), if_neg (not_not_intro hd)]
  constructor
  · constructor
    · intro hok
      unfold proxFnInit at hok
      split_ifs at hok with h1 h2 h3 h4 h5 h6 <;>
        first
          | (rw [not_or, not_not, not_lt] at h3 h4
             exact ⟨h1, h2, h3, h4, h5, h6⟩)
          | simp [exceptOk] at hok
    · intro hrhs
      rw [hmain hrhs]
      rfl
  · exact hmain

/-- Witness for C8 at shape [1] with good scalars, scalar b = 5 and tensor
c of shape [1]: the constructor succeeds and stores the materialized b, c. -/
theorem proxfn_init_checks_witness :
    (((PyVal.scalar 5).isscalar = true ∨ (PyVal.scalar 5).shape = [1]) ∧
     ((PyVal.tensor [1] fun _ => 7).isscalar = true ∨
        (PyVal.tensor [1] fun _ => 7).shape = [1]) ∧
     ((PyVal.scalar 1).isscalar = true ∧ 0 ≤ (PyVal.scalar 1).val) ∧
     ((PyVal.scalar 0).isscalar = true ∧ 0 ≤ (PyVal.scalar 0).val) ∧
     (PyVal.scalar 2).isscalar = true ∧ (PyVal.scalar 3).isscalar = true) ∧
    proxFnInit [1] (PyVal.scalar 1) (PyVal.scalar 2) (PyVal.scalar 0)
        (PyVal.scalar 3) (PyVal.scalar 5) (PyVal.tensor [1] fun _ => 7) =
      Except.ok ⟨(PyVal.scalar 1).val, (PyVal.scalar 2).val,
                 (PyVal.scalar 0).val, (PyVal.scalar 3).val,
                 materializeAt [1] (PyVal.scalar 5),
                 materializeAt [1] (PyVal.tensor [1] fun _ => 7)⟩ :=
  ⟨⟨Or.inl rfl, Or.inr rfl, ⟨rfl, by norm_num [PyVal.val]⟩,
    ⟨rfl, by norm_num [PyVal.val]⟩, rfl, rfl⟩,
   (proxfn_init_checks [1] (PyVal.scalar 1) (PyVal.scalar 2) (PyVal.scalar 0)
      (PyVal.scalar 3) (PyVal.scalar 5) (PyVal.tensor [1] fun _ => 7)).2
     ⟨Or.inl rfl, Or.inr rfl, ⟨rfl, by norm_num [PyVal.val]⟩,
      ⟨rfl, by norm_num [PyVal.val]⟩, rfl, rfl⟩⟩

/-- Counterexample to C8 as stated: the shape [1, 2] is broadcastable to the
operator shape [2, 2], yet the constructor rejects a b tensor of shape [1, 2]
with an invalid-dimensions error instead of accepting it. -/
theorem proxfn_broadcast_rejected_cex :
    broadcastable [1, 2] [2, 2] = true ∧
    exceptOk (proxFnInit [2, 2] (PyVal.scalar 1) (PyVal.scalar 1)
        (PyVal.scalar 0) (PyVal.scalar 0) (PyVal.tensor [1, 2] fun _ => 0)
        (PyVal.scalar 0)) = false := by
  constructor
  · rfl
  · rfl
